import Mathlib

/-!
Verification of the Listen voice-capture application.

This file gives a shallow embedding of the parts of the repository that the
specification's testable properties talk about, and settles each property
against it:

* the single-pole high-pass filter and resampling frame-count computation of
  `Listen/Audio/AudioCaptureService.swift`;
* the recording / transcription state machine of the SwiftUI `AppState`
  orchestrator (`startRecording`, `stopRecording`, `handleTranscription`,
  `setActive`);
* the fn/globe key edge detector of
  `electron/resources/macos-globe-listener.swift`;
* the line-buffered child-process stdout reader, hotkey registration logic and
  accelerator-format table of `electron/main.js`;
* the device-change handler and backend-message handler of
  `electron/renderer.js`.

Machine floating point is modelled by exact arithmetic (`ℚ` / `ℝ`); sample
buffers are lists of rationals; JavaScript / Swift strings are modelled as
`List Char`.
-/

namespace Listen

/-! ## High-pass filter (AudioCaptureService.swift, tap closure)

The tap body keeps two floats of state (`hpPrevInput`, `hpPrevOutput`) and
runs, for each sample `x` of a block:
`prevOut = hpAlpha * (prevOut + x - prevIn); prevIn = x; samples[i] = prevOut`.
The state persists across blocks and is reset to `0` in `start()`.
The filter loop is polymorphic in the ring of samples so that it can be run
both on `ℚ` (executable witnesses) and on `ℝ` (where the code's coefficient
`hpAlpha` lives, since it involves `π`). -/

/-- Filter state: `(hpPrevInput, hpPrevOutput)`. -/
abbrev HPState (R : Type) := R × R

/-- Filter loop of the tap closure, one block: returns the filtered samples
and the updated `(hpPrevInput, hpPrevOutput)` state. -/
def hpFilterBlock {R : Type} [CommRing R] (hpAlpha : R) :
    HPState R → List R → List R × HPState R
  | s, [] => ([], s)
  | s, x :: xs =>
    let y := hpAlpha * (s.2 + x - s.1)
    let (ys, s') := hpFilterBlock hpAlpha (x, y) xs
    (y :: ys, s')

/-- Filter state after `start()` (which resets it to zero) followed by a
sequence of processed blocks. -/
def hpProcessBlocks {R : Type} [CommRing R] (hpAlpha : R) (blocks : List (List R)) :
    HPState R :=
  blocks.foldl (fun s b => (hpFilterBlock hpAlpha s b).2) (0, 0)

/-- Coefficient computation `highPassAlpha(cutoff:sampleRate:)`:
`rc = 1/(2·π·cutoff)`, `dt = 1/sampleRate`, result `rc/(rc+dt)`. -/
noncomputable def highPassAlpha (cutoff sampleRate : ℝ) : ℝ :=
  let rc := 1 / (2 * Real.pi * cutoff)
  let dt := 1 / sampleRate
  rc / (rc + dt)

/-- The coefficient used by `start()`: cutoff 80 Hz at 16 kHz. -/
noncomputable def hpAlpha80 : ℝ := highPassAlpha 80 16000

lemma hpAlpha80_pos : 0 < hpAlpha80 := by
  have hpi : (0 : ℝ) < Real.pi := Real.pi_pos
  have hrc : (0 : ℝ) < 1 / (2 * Real.pi * 80) := by positivity
  have hdt : (0 : ℝ) < 1 / (16000 : ℝ) := by norm_num
  have : (0 : ℝ) < 1 / (2 * Real.pi * 80) + 1 / 16000 := by linarith
  exact div_pos hrc this

lemma hpAlpha80_lt_one : hpAlpha80 < 1 := by
  have hpi : (0 : ℝ) < Real.pi := Real.pi_pos
  have hrc : (0 : ℝ) < 1 / (2 * Real.pi * 80) := by positivity
  have hdt : (0 : ℝ) < 1 / (16000 : ℝ) := by norm_num
  have hsum : (0 : ℝ) < 1 / (2 * Real.pi * 80) + 1 / 16000 := by linarith
  show (1 / (2 * Real.pi * 80)) / (1 / (2 * Real.pi * 80) + 1 / 16000) < 1
  rw [div_lt_one hsum]
  linarith

/-! ## Resampling frame count (AudioCaptureService.swift, tap closure)

The tap computes `ratio = inputFormat.sampleRate / 16000.0` and
`outputFrames = AVAudioFrameCount(Double(buffer.frameLength) / ratio)`
(the integer conversion truncates, i.e. takes the floor for non-negative
values), then drops the block with a plain `return` — no error — when
`outputFrames == 0`. -/

/-- Output frame count computed by the tap: `⌊frameLength / (rate/16000)⌋`. -/
def resampleOutputFrames (frameLength : ℕ) (inputRate : ℚ) : ℤ :=
  ⌊(frameLength : ℚ) / (inputRate / 16000)⌋

/-- Guard at the top of the tap: a block whose computed output frame count is
not positive is dropped (`none`); otherwise the count is used. The tap returns
normally in both cases — there is no error path here. -/
def tapOutputFrames (frameLength : ℕ) (inputRate : ℚ) : Option ℤ :=
  let f := resampleOutputFrames frameLength inputRate
  if 0 < f then some f else none

lemma abs_floor_sub_round (x : ℚ) : |⌊x⌋ - round x| ≤ 1 := by
  have h1 : ⌊x⌋ ≤ round x := by
    rw [round_eq]
    exact Int.floor_le_floor (by linarith)
  have h2 : round x ≤ ⌊x⌋ + 1 := by
    rw [round_eq]
    have : ⌊x + 1 / 2⌋ ≤ ⌊x + 1⌋ := Int.floor_le_floor (by linarith)
    simpa [Int.floor_add_one] using this
  rw [abs_le]
  omega

/-- C2: for every input sample rate `R > 0` and block of `N` frames, the
computed output frame count is within 1 of `round(N·16000/R)`, and a
non-positive count makes the tap drop the block (`none`) without an error,
while a positive count is kept. -/
theorem resample_frame_count (N : ℕ) (R : ℚ) (hR : 0 < R) :
    |resampleOutputFrames N R - round ((N : ℚ) * 16000 / R)| ≤ 1 ∧
    (resampleOutputFrames N R ≤ 0 → tapOutputFrames N R = none) ∧
    (0 < resampleOutputFrames N R →
      tapOutputFrames N R = some (resampleOutputFrames N R)) := by
  refine ⟨?_, ?_, ?_⟩
  · have hx : (N : ℚ) / (R / 16000) = (N : ℚ) * 16000 / R := by
      rw [div_div_eq_mul_div]
    rw [resampleOutputFrames, hx]
    exact abs_floor_sub_round _
  · intro h
    rw [tapOutputFrames, if_neg (by omega)]
  · intro h
    rw [tapOutputFrames, if_pos h]

/-- Witness for `resample_frame_count` at a 4096-frame block from a 48 kHz
device: the computed count 1365 is within 1 of `round(4096/3)`. -/
theorem resample_frame_count_witness :
    |resampleOutputFrames 4096 48000 - round ((4096 : ℚ) * 16000 / 48000)| ≤ 1 ∧
    (resampleOutputFrames 4096 48000 ≤ 0 → tapOutputFrames 4096 48000 = none) ∧
    (0 < resampleOutputFrames 4096 48000 →
      tapOutputFrames 4096 48000 = some (resampleOutputFrames 4096 48000)) :=
  resample_frame_count 4096 48000 (by norm_num)

/-! ## C1: the filter on silence -/

/-- C1 counterexample: the claim "an all-zero input block after any reachable
filter state yields an all-zero output block" is false.  After processing the
single block `[1]` from the reset state, the state is
`(1, α)` with `α = hpAlpha80`, and filtering the all-zero block `[0]` outputs
`[α·(α−1)]`, which is strictly negative (since `0 < α < 1`), not zero. -/
theorem hp_filter_silence_counterexample :
    (hpFilterBlock hpAlpha80 (hpProcessBlocks hpAlpha80 [[1]]) [0]).1 ≠ [0] := by
  have hstate : hpProcessBlocks hpAlpha80 [[(1 : ℝ)]] =
      (1, hpAlpha80 * (0 + 1 - 0)) := by
    simp [hpProcessBlocks, hpFilterBlock]
  have hout : (hpFilterBlock hpAlpha80 (hpProcessBlocks hpAlpha80 [[(1 : ℝ)]]) [0]).1 =
      [hpAlpha80 * (hpAlpha80 * (0 + 1 - 0) + 0 - 1)] := by
    rw [hstate]
    simp [hpFilterBlock]
  rw [hout]
  have h1 : hpAlpha80 * (hpAlpha80 * (0 + 1 - 0) + 0 - 1) =
      hpAlpha80 * (hpAlpha80 - 1) := by ring
  have hneg : hpAlpha80 * (hpAlpha80 - 1) < 0 :=
    mul_neg_of_pos_of_neg hpAlpha80_pos (by linarith [hpAlpha80_lt_one])
  simp only [h1, ne_eq, List.cons.injEq, and_true]
  exact ne_of_lt hneg

/-- C1 amended: for every filter state whose `prevInput` and `prevOutput`
components agree — in particular the reset state `(0, 0)` installed by
`start()`, and any state reached by processing only silence — filtering an
all-zero block yields an all-zero block (and the state returns to `(0, 0)`
after the first sample). -/
theorem hp_filter_silence_balanced {R : Type} [CommRing R] (hpAlpha : R)
    (s : HPState R) (h : s.1 = s.2) (n : ℕ) :
    (hpFilterBlock hpAlpha s (List.replicate n (0 : R))).1 = List.replicate n 0 := by
  induction n generalizing s with
  | zero => simp [hpFilterBlock]
  | succ n ih =>
    have hy : hpAlpha * (s.2 + 0 - s.1) = 0 := by rw [h]; ring
    simp only [List.replicate_succ, hpFilterBlock, hy]
    rw [ih (0, 0) rfl]

/-- Witness for `hp_filter_silence_balanced` at the reset state over `ℚ` with
a concrete coefficient and a three-sample silent block. -/
theorem hp_filter_silence_balanced_witness :
    (hpFilterBlock ((1 : ℚ) / 2) ((0 : ℚ), (0 : ℚ)) (List.replicate 3 0)).1 =
      List.replicate 3 0 :=
  hp_filter_silence_balanced ((1 : ℚ) / 2) (0, 0) rfl 3

/-! ## String model

JavaScript and Swift strings are modelled as `List Char`.  `wsTrim` models
both JavaScript `String.prototype.trim()` and Swift
`trimmingCharacters(in: .whitespacesAndNewlines)` on the ASCII whitespace
characters that can actually occur in the protocol strings. -/

/-- Whitespace test used by the trim model. -/
def isWsChar (c : Char) : Bool :=
  c = ' ' || c = '\t' || c = '\n' || c = '\r' || c = '\x0b' || c = '\x0c'

/-- Trim whitespace from both ends of a string. -/
def wsTrim (l : List Char) : List Char :=
  ((l.dropWhile isWsChar).reverse.dropWhile isWsChar).reverse

/-- Lower-casing, modelling `toLowerCase()` on the ASCII strings involved. -/
def jsToLower (l : List Char) : List Char := l.map Char.toLower

/-! ## AppState orchestrator (src/unnamed/part_001)

The SwiftUI `AppState` owns the recording state machine.  Its fields relevant
to the claims are embedded below; `statusText` string values become an
enumeration.  `startRecording` is parameterised by the outcome of
`audioCaptureService.start()` (which can throw
`AudioCaptureError.converterCreationFailed` when `AVAudioConverter` cannot be
created for the input format); `stopRecording` returns the updated state plus
the sample buffer handed to the transcription task (`none` when dispatch is
skipped); `handleTranscription` returns the updated state plus the emitted
side effects (text injection). -/

/-- Error thrown by `AudioCaptureService.start()`. -/
inductive AudioCaptureError
  | converterCreationFailed
deriving DecidableEq

/-- Values taken by `AppState.statusText`. -/
inductive StatusText
  | initializing
  | loadingModel
  | ready
  | recording
  | transcribing
  | error
deriving DecidableEq

/-- Structured errors published via `AppState.errorMessage`. -/
inductive ErrMsg
  | captureFailed (e : AudioCaptureError)
  | modelLoadFailed
  | transcribeFailed
deriving DecidableEq

/-- Activation mode from the data model. -/
inductive Mode
  | pushToTalk
  | toggleMute
deriving DecidableEq

/-- Hotkey / mode configuration. -/
structure AppConfig where
  mode : Mode
  hotkey : List Char
deriving DecidableEq

/-- Side effects emitted by `handleTranscription`. -/
inductive AppEvent
  | insertText (text : List Char)
deriving DecidableEq

/-- The embedded fields of `AppState`. -/
structure AppState where
  isModelLoaded : Bool
  isRecording : Bool
  statusText : StatusText
  errorMessage : Option ErrMsg
  audioSamples : List ℚ
  lastTranscription : List Char
  transcriptions : List (List Char)
  config : AppConfig
deriving DecidableEq

/-- `AppState.startRecording()`: sets the recording flag and status, clears
the sample accumulator, then tries `audioCaptureService.start()`; on a thrown
error it publishes the error once, clears the recording flag and sets the
status to Error. -/
def startRecording (captureStart : Except AudioCaptureError Unit)
    (st : AppState) : AppState :=
  let st1 := { st with
    isRecording := true
    statusText := StatusText.recording
    audioSamples := [] }
  match captureStart with
  | Except.ok _ => st1
  | Except.error e =>
    { st1 with
      errorMessage := some (ErrMsg.captureFailed e)
      isRecording := false
      statusText := StatusText.error }

/-- `AppState.stopRecording()`: clears the recording flag, sets status to
Transcribing, drains the accumulator; with an empty buffer it returns the
status to Ready and skips dispatch (`none`), otherwise it hands the samples
to the transcription task (`some`). -/
def stopRecording (st : AppState) : AppState × Option (List ℚ) :=
  let st1 := { st with
    isRecording := false
    statusText := StatusText.transcribing }
  let samples := st1.audioSamples
  let st2 := { st1 with audioSamples := [] }
  if samples = [] then ({ st2 with statusText := StatusText.ready }, none)
  else (st2, some samples)

/-- `AppState.handleTranscription(_:)`: trims the engine result; an empty trim
returns the status to Ready and emits nothing; otherwise the text is appended
to the bounded history (oldest entry evicted above 200) and injected. -/
def handleTranscription (st : AppState) (text : List Char) :
    AppState × List AppEvent :=
  let trimmed := wsTrim text
  if trimmed = [] then ({ st with statusText := StatusText.ready }, [])
  else
    let st1 := { st with
      lastTranscription := trimmed
      transcriptions := st.transcriptions ++ [trimmed]
      statusText := StatusText.ready }
    let st2 :=
      if 200 < st1.transcriptions.length then
        { st1 with transcriptions := st1.transcriptions.drop 1 }
      else st1
    (st2, [AppEvent.insertText trimmed])

/-- `AppState.setActive(_:)`: guarded by `isModelLoaded`; starts recording on
a rising request, stops on a falling one. -/
def setActive (captureStart : Except AudioCaptureError Unit) (active : Bool)
    (st : AppState) : AppState :=
  if st.isModelLoaded = false then st
  else if active && !st.isRecording then startRecording captureStart st
  else if !active && st.isRecording then (stopRecording st).1
  else st

/-- A concrete Ready state with the model loaded, for counterexamples. -/
def readyAppState : AppState :=
  { isModelLoaded := true
    isRecording := false
    statusText := StatusText.ready
    errorMessage := none
    audioSamples := []
    lastTranscription := []
    transcriptions := []
    config := { mode := Mode.pushToTalk, hotkey := ['f', 'n'] } }

/-! ## C4: converter creation failure -/

/-- C4 counterexample: when `audioCaptureService.start()` throws
`converterCreationFailed` from a Ready state, the code sets
`statusText = "Error"`, not `"Ready"` — the activation state does not return
to Ready as claimed. -/
theorem capture_failure_counterexample :
    (startRecording (Except.error AudioCaptureError.converterCreationFailed)
        readyAppState).statusText = StatusText.error ∧
    (startRecording (Except.error AudioCaptureError.converterCreationFailed)
        readyAppState).statusText ≠ StatusText.ready ∧
    (startRecording (Except.error AudioCaptureError.converterCreationFailed)
        readyAppState).isRecording = false ∧
    (startRecording (Except.error AudioCaptureError.converterCreationFailed)
        readyAppState).errorMessage =
      some (ErrMsg.captureFailed AudioCaptureError.converterCreationFailed) := by
  refine ⟨rfl, ?_, rfl, rfl⟩
  decide

/-- C4 amended: a converter-creation failure aborts capture (recording flag
cleared), surfaces exactly one structured error, and leaves the activation
state in Error — not Ready; the failure is handled (the function is total),
so the process does not crash. -/
theorem capture_failure_surfaced (st : AppState) :
    (startRecording (Except.error AudioCaptureError.converterCreationFailed)
        st).isRecording = false ∧
    (startRecording (Except.error AudioCaptureError.converterCreationFailed)
        st).statusText = StatusText.error ∧
    (startRecording (Except.error AudioCaptureError.converterCreationFailed)
        st).errorMessage =
      some (ErrMsg.captureFailed AudioCaptureError.converterCreationFailed) ∧
    (startRecording (Except.error AudioCaptureError.converterCreationFailed)
        st).audioSamples = [] :=
  ⟨rfl, rfl, rfl, rfl⟩

/-! ## C6: empty sessions never produce a transcription -/

/-- C6: a stop with an empty accumulated buffer skips dispatch (the engine is
never called) and reverts the status directly to Ready; and an engine result
that trims to the empty string is discarded — no transcript entry is
appended, the last transcription is unchanged, and no injection event is
emitted. -/
theorem empty_session_no_transcription (st : AppState) (text : List Char) :
    (st.audioSamples = [] →
      stopRecording st =
        ({ st with
            isRecording := false
            statusText := StatusText.ready
            audioSamples := [] }, none)) ∧
    (wsTrim text = [] →
      handleTranscription st text = ({ st with statusText := StatusText.ready }, [])) := by
  constructor
  · intro h
    rw [stopRecording]
    simp [h]
  · intro h
    rw [handleTranscription]
    simp [h]

/-- Witness for `empty_session_no_transcription` at a Ready state with an
empty buffer and an all-whitespace engine result. -/
theorem empty_session_no_transcription_witness :
    (readyAppState.audioSamples = [] →
      stopRecording readyAppState =
        ({ readyAppState with
            isRecording := false
            statusText := StatusText.ready
            audioSamples := [] }, none)) ∧
    (wsTrim [' ', '\n'] = [] →
      handleTranscription readyAppState [' ', '\n'] =
        ({ readyAppState with statusText := StatusText.ready }, [])) :=
  empty_session_no_transcription readyAppState [' ', '\n']

/-- Closed instance of `empty_session_no_transcription` with its hypotheses
discharged at the concrete input. -/
theorem empty_session_no_transcription_witness2 :
    stopRecording readyAppState =
        ({ readyAppState with
            isRecording := false
            statusText := StatusText.ready
            audioSamples := [] }, none) ∧
    handleTranscription readyAppState [' ', '\n'] =
        ({ readyAppState with statusText := StatusText.ready }, []) :=
  ⟨(empty_session_no_transcription readyAppState [' ', '\n']).1 rfl,
   (empty_session_no_transcription readyAppState [' ', '\n']).2 (by decide)⟩

/-! ## C9: activation attempts while the model is not loaded -/

/-- C9: a set-active request while the model is not loaded is a complete
no-op: the state — including the recording flag and the whole mode/hotkey
configuration — is returned unchanged. -/
theorem set_active_requires_model (captureStart : Except AudioCaptureError Unit)
    (active : Bool) (st : AppState) (h : st.isModelLoaded = false) :
    setActive captureStart active st = st := by
  rw [setActive, if_pos h]

/-- Witness for `set_active_requires_model`: an activation attempt on the
initial (not yet loaded) state changes nothing. -/
theorem set_active_requires_model_witness :
    setActive (Except.ok ()) true { readyAppState with isModelLoaded := false } =
      { readyAppState with isModelLoaded := false } :=
  set_active_requires_model (Except.ok ()) true
    { readyAppState with isModelLoaded := false } rfl

/-! ## Globe (fn) key listener (electron/resources/macos-globe-listener.swift)

The CGEvent-tap callback, on each `flagsChanged` event, reads the flag set,
requires that no other modifier (cmd/shift/alt/ctrl) accompanies fn for a
press, and debounces both edges through the `fnDown` boolean. -/

/-- The OS-reported modifier flag set of a `flagsChanged` event. -/
structure FnFlags where
  fn : Bool
  cmd : Bool
  shift : Bool
  alt : Bool
  ctrl : Bool
deriving DecidableEq

/-- Edge tokens printed to stdout. -/
inductive FnEdge
  | down
  | up
deriving DecidableEq

/-- Other-modifier test: `flags.intersection([cmd, shift, alt, ctrl])` is
non-empty. -/
def hasOtherModifier (flags : FnFlags) : Bool :=
  flags.cmd || flags.shift || flags.alt || flags.ctrl

/-- The tap callback for one `flagsChanged` event: given the current `fnDown`
state and the flag set, returns the new `fnDown` state and the emitted edge,
if any. -/
def globeCallback (fnDown : Bool) (flags : FnFlags) : Bool × Option FnEdge :=
  if flags.fn && !hasOtherModifier flags && !fnDown then (true, some FnEdge.down)
  else if !flags.fn && fnDown then (false, some FnEdge.up)
  else (fnDown, none)

/-- C8: a Down edge is emitted exactly when fn is present, no other modifier
is present, and the key was up (so at most once per press); an Up edge is
emitted exactly when fn is absent and the key was down (at most once per
release); and a flag set holding fn together with another modifier emits
nothing. -/
theorem globe_callback_edges (fnDown : Bool) (flags : FnFlags) :
    ((globeCallback fnDown flags).2 = some FnEdge.down ↔
      flags.fn = true ∧ hasOtherModifier flags = false ∧ fnDown = false) ∧
    ((globeCallback fnDown flags).2 = some FnEdge.up ↔
      flags.fn = false ∧ fnDown = true) ∧
    (flags.fn = true → hasOtherModifier flags = true →
      (globeCallback fnDown flags).2 = none) ∧
    ((globeCallback fnDown flags).2 = some FnEdge.down →
      (globeCallback fnDown flags).1 = true) ∧
    ((globeCallback fnDown flags).2 = some FnEdge.up →
      (globeCallback fnDown flags).1 = false) := by
  obtain ⟨f, c, s, a, k⟩ := flags
  cases fnDown <;> cases f <;> cases c <;> cases s <;> cases a <;> cases k <;> decide

/-- Witness for `globe_callback_edges`: fn plus cmd held emits nothing. -/
theorem globe_callback_edges_witness :
    (globeCallback false
        { fn := true, cmd := true, shift := false, alt := false, ctrl := false }).2 =
      none :=
  (globe_callback_edges false
      { fn := true, cmd := true, shift := false, alt := false, ctrl := false }).2.2.1
    rfl rfl

/-! ## Renderer state and the device-change handler (electron/renderer.js)

The renderer keeps `modelLoaded` and `currentState`; `window.listen.onMessage`
updates them from backend messages, and the `deviceSelect` change listener
sends `set_device` always, plus `stop` / delayed `start` whenever
`modelLoaded` is set — it never consults `currentState`. -/

/-- Renderer-side status values (argument of `setStatus`). -/
inductive RdrStatus
  | idle
  | loading
  | ready
  | recording
  | listening
  | muted
  | error
deriving DecidableEq

/-- Values of the `state` field of a backend `state` message. -/
inductive BackendStateVal
  | idle
  | ready
  | recording
  | listening
  | muted
  | stopped
  | quit
deriving DecidableEq

/-- The backend messages handled by the renderer's `onMessage` switch. -/
inductive RdrMsg
  | state (s : Option BackendStateVal)
  | transcription
  | modelLoading
  | modelLoaded
  | status
  | devices
  | error
deriving DecidableEq

/-- Renderer-tracked state. -/
structure RdrState where
  modelLoaded : Bool
  currentState : RdrStatus
deriving DecidableEq

/-- The `handleState` switch on `msg.state`. -/
def handleStateMsg (st : RdrState) (s : Option BackendStateVal) : RdrState :=
  match s with
  | none => st
  | some BackendStateVal.idle => { st with currentState := RdrStatus.loading }
  | some BackendStateVal.ready => { st with currentState := RdrStatus.ready }
  | some BackendStateVal.recording => { st with currentState := RdrStatus.recording }
  | some BackendStateVal.listening => { st with currentState := RdrStatus.listening }
  | some BackendStateVal.muted => { st with currentState := RdrStatus.muted }
  | some BackendStateVal.stopped => { st with currentState := RdrStatus.ready }
  | some BackendStateVal.quit => { st with currentState := RdrStatus.ready }

/-- The `onMessage` switch. -/
def rdrOnMessage (st : RdrState) (msg : RdrMsg) : RdrState :=
  match msg with
  | RdrMsg.state s => handleStateMsg st s
  | RdrMsg.transcription => st
  | RdrMsg.modelLoading => { st with currentState := RdrStatus.loading }
  | RdrMsg.modelLoaded =>
    { st with modelLoaded := true, currentState := RdrStatus.ready }
  | RdrMsg.status => { st with currentState := RdrStatus.loading }
  | RdrMsg.devices => st
  | RdrMsg.error => { st with currentState := RdrStatus.error }

/-- Renderer state after a sequence of backend messages, from the initial
state (`modelLoaded = false`, `currentState = "idle"`). -/
def rdrRun (msgs : List RdrMsg) : RdrState :=
  msgs.foldl rdrOnMessage { modelLoaded := false, currentState := RdrStatus.idle }

/-- Commands the UI sends to the backend over the bridge. -/
inductive UiCmd
  | setDevice (device : Option ℤ)
  | stop
  | start
  | setActiveCmd (active : Bool)
deriving DecidableEq

/-- The `deviceSelect` change listener: always sends `set_device`; when
`modelLoaded` it additionally sends `stop` immediately and `start` after a
500 ms settling timeout.  Each command is paired with its delay in ms. -/
def deviceSelectChange (st : RdrState) (device : Option ℤ) : List (UiCmd × ℕ) :=
  (UiCmd.setDevice device, 0) ::
    (if st.modelLoaded then [(UiCmd.stop, 0), (UiCmd.start, 500)] else [])

/-! ## C3: set_device while Ready vs while Recording -/

/-- C3 counterexample: after `model_loaded` the renderer is in Ready with the
engine loaded and no active session, yet a device change still emits `stop`
and `start` — a capture restart is triggered, contradicting the claim that no
restart happens while Ready. -/
theorem set_device_ready_counterexample :
    (rdrRun [RdrMsg.modelLoaded]).currentState = RdrStatus.ready ∧
    (rdrRun [RdrMsg.modelLoaded]).modelLoaded = true ∧
    (UiCmd.stop, 0) ∈ deviceSelectChange (rdrRun [RdrMsg.modelLoaded]) (some 1) ∧
    (UiCmd.start, 500) ∈ deviceSelectChange (rdrRun [RdrMsg.modelLoaded]) (some 1) := by
  decide

/-- C3 amended: whenever the engine is loaded — regardless of the current
activation state, so both while Ready and while Recording — a device change
sends the configuration update followed by `stop` and then `start` after the
500 ms settling delay; the old capture is stopped before the restart fires. -/
theorem set_device_restart (msgs : List RdrMsg) (device : Option ℤ)
    (h : (rdrRun msgs).modelLoaded = true) :
    deviceSelectChange (rdrRun msgs) device =
      [(UiCmd.setDevice device, 0), (UiCmd.stop, 0), (UiCmd.start, 500)] := by
  rw [deviceSelectChange, h]
  rfl

/-- Witness for `set_device_restart` while Recording: a device change during
an active session stops capture and restarts it after the settling delay. -/
theorem set_device_restart_witness :
    deviceSelectChange
        (rdrRun [RdrMsg.modelLoaded, RdrMsg.state (some BackendStateVal.recording)])
        (some 1) =
      [(UiCmd.setDevice (some 1), 0), (UiCmd.stop, 0), (UiCmd.start, 500)] :=
  set_device_restart [RdrMsg.modelLoaded, RdrMsg.state (some BackendStateVal.recording)]
    (some 1) rfl

/-! ## C10: the OS-accelerator callback (electron/main.js)

The `globalShortcut.register` callback captures no mode information: it
negates the orchestrator's `isActive` flag and sends `set_active` with the
new value. -/

/-- Orchestrator-tracked state relevant to the accelerator callback. -/
structure OrcState where
  isActive : Bool
  currentMode : Mode
deriving DecidableEq

/-- The registered accelerator callback: `newActive = !isActive`, store it,
send `set_active: newActive`. -/
def accelCallback (st : OrcState) : OrcState × UiCmd :=
  let newActive := !st.isActive
  ({ st with isActive := newActive }, UiCmd.setActiveCmd newActive)

/-- Iterated accelerator fires. -/
def accelFires : ℕ → OrcState → OrcState
  | 0, st => st
  | n + 1, st => accelFires n (accelCallback st).1

/-- C10: every accelerator fire inverts `isActive` and sends `set_active`
with the new value; the result is the same whatever the configured mode
(the callback never consults it), so after `n` fires the flag equals the
initial flag xor the parity of `n` — push-to-talk behaves as a toggle via
the OS accelerator. -/
theorem accel_callback_toggles (st : OrcState) :
    accelCallback st =
      ({ st with isActive := !st.isActive }, UiCmd.setActiveCmd (!st.isActive)) ∧
    (∀ m : Mode, (accelCallback { st with currentMode := m }).1.isActive =
      (accelCallback st).1.isActive ∧
      (accelCallback { st with currentMode := m }).2 = (accelCallback st).2) ∧
    (∀ n : ℕ, (accelFires n st).isActive = xor st.isActive (decide (n % 2 = 1))) := by
  refine ⟨rfl, fun m => ⟨rfl, rfl⟩, ?_⟩
  intro n
  induction n generalizing st with
  | zero => simp [accelFires]
  | succ n ih =>
    have hstep : accelFires (n + 1) st = accelFires n { st with isActive := !st.isActive } :=
      rfl
    rw [hstep, ih]
    have hpar : decide ((n + 1) % 2 = 1) = !decide (n % 2 = 1) := by
      rcases Nat.mod_two_eq_zero_or_one n with h | h
      · have h2 : (n + 1) % 2 = 1 := by omega
        simp [h, h2]
      · have h2 : (n + 1) % 2 = 0 := by omega
        simp [h, h2]
    rw [hpar]
    cases st.isActive <;> cases hb : decide (n % 2 = 1) <;> simp

/-! ## Line-buffered stdout reader (electron/main.js, startBackend)

The data handler does `buffer += data; lines = buffer.split("\n");
buffer = lines.pop();` and then, for every complete line, skips blank lines,
tries `JSON.parse` and silently ignores parse failures.  `splitChar` models
`String.prototype.split` with a one-character separator (`n` separators give
`n+1` parts, empty parts included); the host JSON parser is an opaque
parameter `parse` that yields `none` on malformed input (the `catch` arm). -/

/-- JavaScript `buffer.split(sep)` for a single-character separator. -/
def splitChar (sep : Char) : List Char → List (List Char)
  | [] => [[]]
  | c :: rest =>
    if c = sep then [] :: splitChar sep rest
    else
      match splitChar sep rest with
      | [] => [[c]]
      | l :: ls => (c :: l) :: ls

/-- The final (possibly empty) part of a split — what `lines.pop()` returns. -/
def lastPart (ps : List (List Char)) : List Char := (ps.getLast?).getD []

/-- Merge a leading fragment into the first part of a split. -/
def glueHead (x : List Char) : List (List Char) → List (List Char)
  | [] => [x]
  | h :: t => (x ++ h) :: t

lemma splitChar_ne_nil (sep : Char) (l : List Char) : splitChar sep l ≠ [] := by
  induction l with
  | nil => simp [splitChar]
  | cons c rest ih =>
    simp only [splitChar]
    split
    · simp
    · split <;> simp

lemma glueHead_ne_nil (x : List Char) (ps : List (List Char)) : glueHead x ps ≠ [] := by
  cases ps <;> simp [glueHead]

lemma dropLast_append_ne_nil (a b : List (List Char)) (hb : b ≠ []) :
    (a ++ b).dropLast = a ++ b.dropLast := by
  induction a with
  | nil => simp
  | cons x xs ih =>
    have hne : xs ++ b ≠ [] := by
      intro h
      exact hb (List.append_eq_nil.mp h).2
    cases hx : xs ++ b with
    | nil => exact absurd hx hne
    | cons y ys =>
      simp only [List.cons_append, hx, List.dropLast_cons₂]
      rw [← hx, ih]

lemma lastPart_append_ne_nil (a b : List (List Char)) (hb : b ≠ []) :
    lastPart (a ++ b) = lastPart b := by
  rw [lastPart, lastPart, List.getLast?_append_of_ne_nil _ hb]

lemma lastPart_cons_cons (x y : List Char) (ls : List (List Char)) :
    lastPart (x :: y :: ls) = lastPart (y :: ls) := by
  rw [lastPart, lastPart, List.getLast?_cons_cons]

/-- Splitting a concatenation: the last fragment of the left half glues onto
the first part of the right half. -/
lemma splitChar_append (sep : Char) (a b : List Char) :
    splitChar sep (a ++ b) =
      (splitChar sep a).dropLast ++
        glueHead (lastPart (splitChar sep a)) (splitChar sep b) := by
  induction a with
  | nil =>
    cases hb : splitChar sep b with
    | nil => exact absurd hb (splitChar_ne_nil sep b)
    | cons h t => simp [splitChar, glueHead, lastPart, hb]
  | cons c a2 ih =>
    by_cases hc : c = sep
    · cases hA : splitChar sep a2 with
      | nil => exact absurd hA (splitChar_ne_nil sep a2)
      | cons ah as1 =>
        simp only [List.cons_append, splitChar, if_pos hc, ih, hA,
          List.dropLast_cons₂, lastPart_cons_cons, List.cons_append]
        rw [← hA]
        simp [ih, hA]
    · cases hA : splitChar sep a2 with
      | nil => exact absurd hA (splitChar_ne_nil sep a2)
      | cons ah as1 =>
        cases as1 with
        | nil =>
          cases hb : splitChar sep b with
          | nil => exact absurd hb (splitChar_ne_nil sep b)
          | cons bh bt =>
            have ihx : splitChar sep (a2 ++ b) = (ah ++ bh) :: bt := by
              rw [ih, hA, hb]
              simp [glueHead, lastPart]
            simp only [List.cons_append, splitChar, if_neg hc, hA]
            simp only [List.append_eq]
            rw [ihx]
            simp [glueHead, lastPart]
        | cons ah2 as2 =>
          have ihx : splitChar sep (a2 ++ b) =
              ah :: ((ah2 :: as2).dropLast ++
                glueHead (lastPart (ah2 :: as2)) (splitChar sep b)) := by
            rw [ih, hA, List.dropLast_cons₂, lastPart_cons_cons]
            simp
          simp only [List.cons_append, splitChar, if_neg hc, hA,
            List.dropLast_cons₂, lastPart_cons_cons]
          simp only [List.append_eq]
          rw [ihx]

/-- The trailing fragment of a split never contains the separator. -/
lemma sep_not_mem_lastPart (sep : Char) (l : List Char) :
    sep ∉ lastPart (splitChar sep l) := by
  induction l with
  | nil => simp [splitChar, lastPart]
  | cons c rest ih =>
    by_cases hc : c = sep
    · have hgoal : lastPart (splitChar sep (c :: rest)) = lastPart (splitChar sep rest) := by
        cases hA : splitChar sep rest with
        | nil => exact absurd hA (splitChar_ne_nil sep rest)
        | cons ah as1 =>
          simp only [splitChar, if_pos hc, hA]
          rw [lastPart_cons_cons]
      rw [hgoal]
      exact ih
    · cases hA : splitChar sep rest with
      | nil => exact absurd hA (splitChar_ne_nil sep rest)
      | cons ah as1 =>
        cases as1 with
        | nil =>
          have hgoal : lastPart (splitChar sep (c :: rest)) = c :: ah := by
            simp only [splitChar, if_neg hc, hA]
            rfl
          rw [hgoal]
          rw [hA] at ih
          have hah : sep ∉ ah := by simpa [lastPart] using ih
          intro hmem
          rcases List.mem_cons.mp hmem with h1 | h2
          · exact hc h1.symm
          · exact hah h2
        | cons ah2 as2 =>
          have hgoal : lastPart (splitChar sep (c :: rest)) = lastPart (ah2 :: as2) := by
            simp only [splitChar, if_neg hc, hA]
            rw [lastPart_cons_cons]
          rw [hgoal]
          rw [hA, lastPart_cons_cons] at ih
          exact ih

/-- A separator-free string splits into the single part that is itself. -/
lemma splitChar_of_not_mem (sep : Char) (l : List Char) (h : sep ∉ l) :
    splitChar sep l = [l] := by
  induction l with
  | nil => simp [splitChar]
  | cons c rest ih =>
    have hc : ¬c = sep := fun hcc => h (by rw [hcc]; exact List.mem_cons_self _ _)
    have hrest : sep ∉ rest := fun hm => h (List.mem_cons_of_mem _ hm)
    simp only [splitChar, if_neg hc, ih hrest]

/-- One `data` event: append the chunk to the buffer, split, process the
complete lines, retain the trailing fragment. -/
def readerFeed (buffer chunk : List Char) : List (List Char) × List Char :=
  let parts := splitChar '\n' (buffer ++ chunk)
  (parts.dropLast, lastPart parts)

/-- The reader over a sequence of chunks: the complete lines processed, in
order, and the final buffer contents. -/
def readerRun : List Char → List (List Char) → List (List Char) × List Char
  | buffer, [] => ([], buffer)
  | buffer, chunk :: rest =>
    let fed := readerFeed buffer chunk
    let next := readerRun fed.2 rest
    (fed.1 ++ next.1, next.2)

/-- The incremental reader computes exactly the split of the concatenated
byte stream: all complete lines in order, and the tail after the last
newline as the buffer. -/
lemma readerRun_characterization (chunks : List (List Char)) :
    ∀ buffer : List Char, '\n' ∉ buffer →
      readerRun buffer chunks =
        ((splitChar '\n' (buffer ++ chunks.flatten)).dropLast,
          lastPart (splitChar '\n' (buffer ++ chunks.flatten))) := by
  induction chunks with
  | nil =>
    intro buffer hb
    rw [readerRun]
    simp [splitChar_of_not_mem '\n' buffer hb, lastPart]
  | cons chunk rest ih =>
    intro buffer hb
    have hfrag : '\n' ∉ lastPart (splitChar '\n' (buffer ++ chunk)) :=
      sep_not_mem_lastPart '\n' (buffer ++ chunk)
    have hQ : splitChar '\n' (lastPart (splitChar '\n' (buffer ++ chunk)) ++ rest.flatten) =
        glueHead (lastPart (splitChar '\n' (buffer ++ chunk))) (splitChar '\n' rest.flatten) := by
      rw [splitChar_append, splitChar_of_not_mem '\n' _ hfrag]
      simp [lastPart]
    have hS : splitChar '\n' (buffer ++ (chunk :: rest).flatten) =
        (splitChar '\n' (buffer ++ chunk)).dropLast ++
          glueHead (lastPart (splitChar '\n' (buffer ++ chunk))) (splitChar '\n' rest.flatten) := by
      rw [List.flatten_cons, ← List.append_assoc, splitChar_append]
    rw [readerRun]
    simp only [readerFeed]
    rw [ih _ hfrag, hQ, hS]
    dsimp only
    rw [Prod.mk.injEq]
    constructor
    · rw [dropLast_append_ne_nil _ _ (glueHead_ne_nil _ _)]
    · rw [lastPart_append_ne_nil _ _ (glueHead_ne_nil _ _)]

/-- Per-line processing: skip blank lines (`if (!line.trim()) continue`),
then hand the line to the JSON parser, dropping it when parsing fails (the
silent `catch` arm). -/
def parseCompleteLine {M : Type} (parse : List Char → Option M)
    (line : List Char) : Option M :=
  if wsTrim line = [] then none else parse line

/-- All messages the reader hands on for a sequence of stdout chunks. -/
def readerMessages {M : Type} (parse : List Char → Option M)
    (chunks : List (List Char)) : List M :=
  (readerRun [] chunks).1.filterMap (parseCompleteLine parse)

/-- C5: the reader's output depends only on the concatenated byte stream, not
on where chunk boundaries fall; the messages are exactly those produced from
the complete (newline-terminated) lines of the stream, so a line is processed
only once its newline has arrived; the trailing incomplete fragment is what
remains buffered; and a parser that rejects every line (all lines malformed)
yields no messages and no error. -/
theorem reader_line_protocol {M : Type} (parse : List Char → Option M)
    (cs1 cs2 : List (List Char)) (hjoin : cs1.flatten = cs2.flatten) :
    readerMessages parse cs1 = readerMessages parse cs2 ∧
    readerMessages parse cs1 =
      ((splitChar '\n' cs1.flatten).dropLast).filterMap (parseCompleteLine parse) ∧
    (readerRun [] cs1).2 = lastPart (splitChar '\n' cs1.flatten) ∧
    readerMessages (fun _ => (none : Option M)) cs1 = [] := by
  have hchar : ∀ cs : List (List Char),
      readerRun [] cs =
        ((splitChar '\n' cs.flatten).dropLast, lastPart (splitChar '\n' cs.flatten)) := by
    intro cs
    have := readerRun_characterization cs [] (by simp)
    simpa using this
  refine ⟨?_, ?_, ?_, ?_⟩
  · rw [readerMessages, readerMessages, hchar cs1, hchar cs2, hjoin]
  · rw [readerMessages, hchar cs1]
  · rw [hchar cs1]
  · rw [readerMessages, hchar cs1]
    have : ∀ ls : List (List Char),
        ls.filterMap (parseCompleteLine (fun _ => (none : Option M))) = [] := by
      intro ls
      induction ls with
      | nil => rfl
      | cons x xs ih => simp [parseCompleteLine, ih]
    exact this _

/-- Witness for `reader_line_protocol`: the stream consisting of the line
bytes `a`, `b`, newline arrives either as one chunk or split at an arbitrary
boundary; the processed messages agree. -/
theorem reader_line_protocol_witness :
    readerMessages (fun l => some l) [('a' :: 'b' :: '\n' :: [])] =
      readerMessages (fun l => some l) [['a'], ('b' :: '\n' :: [])] ∧
    readerMessages (fun l => some l) [('a' :: 'b' :: '\n' :: [])] =
      ((splitChar '\n' ([('a' :: 'b' :: '\n' :: [])] : List (List Char)).flatten).dropLast).filterMap
        (parseCompleteLine (fun l => some l)) ∧
    (readerRun [] [('a' :: 'b' :: '\n' :: [])]).2 =
      lastPart (splitChar '\n' ([('a' :: 'b' :: '\n' :: [])] : List (List Char)).flatten) ∧
    readerMessages (fun _ => (none : Option (List Char))) [('a' :: 'b' :: '\n' :: [])] = [] :=
  reader_line_protocol (fun l => some l) [('a' :: 'b' :: '\n' :: [])]
    [['a'], ('b' :: '\n' :: [])] (by decide)

/-! ## Hotkey registration (electron/main.js)

`registerHotkey` first unregisters the previous binding — stopping the native
globe-listener process when the old hotkey is the fn/globe sentinel,
`globalShortcut.unregister(formatHotkey(old))` otherwise — then stores the new
hotkey and either starts the globe listener (which itself begins with
`stopGlobeListener()`) or registers the formatted accelerator.  Each primitive
effect is an `HkAction`; a `registerHotkey` call is the action list it
executes in order, parameterised by the success of the accelerator
registration and of the globe-listener spawn. -/

/-- `isGlobeHotkey`: lower-case, trim, compare against the sentinels. -/
def isGlobeHotkey (hotkey : List Char) : Bool :=
  let h := wsTrim (jsToLower hotkey)
  h = ("fn").toList || h = ("globe").toList

/-- One `+`-separated hotkey token, mapped through the accelerator table. -/
def formatPart (part : List Char) : List Char :=
  let p := jsToLower (wsTrim part)
  if p = ("ctrl").toList || p = ("control").toList then ("Ctrl").toList
  else if p = ("shift").toList then ("Shift").toList
  else if p = ("alt").toList || p = ("option").toList then ("Alt").toList
  else if p = ("cmd").toList || p = ("command").toList || p = ("meta").toList then
    ("Command").toList
  else if p = ("space").toList then ("Space").toList
  else if p = ("tab").toList then ("Tab").toList
  else if p = ("enter").toList || p = ("return").toList then ("Return").toList
  else if p = ("backspace").toList then ("Backspace").toList
  else if p = ("delete").toList then ("Delete").toList
  else if p = ("escape").toList || p = ("esc").toList then ("Escape").toList
  else if p = ("arrowup").toList || p = ("up").toList then ("Up").toList
  else if p = ("arrowdown").toList || p = ("down").toList then ("Down").toList
  else if p = ("arrowleft").toList || p = ("left").toList then ("Left").toList
  else if p = ("arrowright").toList || p = ("right").toList then ("Right").toList
  else if p = ("pageup").toList then ("PageUp").toList
  else if p = ("pagedown").toList then ("PageDown").toList
  else if p = ("home").toList then ("Home").toList
  else if p = ("end").toList then ("End").toList
  else if p = ("insert").toList then ("Insert").toList
  else if p = ("printscreen").toList then ("PrintScreen").toList
  else
    match p with
    | [] => []
    | [c] => [c.toUpper]
    | c :: rest =>
      if c = 'f' && rest.all Char.isDigit then 'F' :: rest
      else c.toUpper :: rest

/-- `formatHotkey`: split on `+`, map each part through the table, re-join. -/
def formatHotkey (hotkey : List Char) : List Char :=
  List.intercalate ['+'] ((splitChar '+' hotkey).map formatPart)

/-- Primitive effects executed by `registerHotkey`. -/
inductive HkAction
  | stopGlobe
  | startGlobe (ok : Bool)
  | unregAccel (accel : List Char)
  | regAccel (accel : List Char) (ok : Bool)
  | setCur (hotkey : List Char)
deriving DecidableEq

/-- Orchestrator hotkey-registration state: whether the native globe listener
process is running, which accelerator (if any) is registered with the OS, and
the stored `currentHotkey`. -/
structure HkState where
  globeActive : Bool
  registeredAccel : Option (List Char)
  currentHotkey : Option (List Char)
deriving DecidableEq

/-- Effect of one primitive action. -/
def execHk (st : HkState) : HkAction → HkState
  | HkAction.stopGlobe => { st with globeActive := false }
  | HkAction.startGlobe ok => { st with globeActive := ok }
  | HkAction.unregAccel a =>
    if st.registeredAccel = some a then { st with registeredAccel := none } else st
  | HkAction.regAccel a ok =>
    if ok then { st with registeredAccel := some a } else st
  | HkAction.setCur h => { st with currentHotkey := some h }

/-- Run a list of actions in order. -/
def runHk (st : HkState) (acts : List HkAction) : HkState := acts.foldl execHk st

/-- The ordered action list of one `registerHotkey(hotkey)` call: unregister
the old binding, store the new hotkey, then register the new binding
(`startGlobeListener` begins with its own `stopGlobeListener()`). -/
def registerHotkeyActs (cur : Option (List Char)) (newHk : List Char)
    (regOk globeOk : Bool) : List HkAction :=
  (match cur with
   | none => []
   | some old =>
     if isGlobeHotkey old then [HkAction.stopGlobe]
     else [HkAction.unregAccel (formatHotkey old)]) ++
  (HkAction.setCur newHk ::
    (if isGlobeHotkey newHk then [HkAction.stopGlobe, HkAction.startGlobe globeOk]
     else [HkAction.regAccel (formatHotkey newHk) regOk]))

/-- One full `registerHotkey` call. -/
def registerHotkeyRun (st : HkState) (call : List Char × Bool × Bool) : HkState :=
  runHk st (registerHotkeyActs st.currentHotkey call.1 call.2.1 call.2.2)

/-- State after the app starts (no listener, no accelerator, no hotkey) and a
sequence of `registerHotkey` calls, each with its outcome flags. -/
def runRegisterCalls (calls : List (List Char × Bool × Bool)) : HkState :=
  calls.foldl registerHotkeyRun { globeActive := false, registeredAccel := none, currentHotkey := none }

/-- Mutual exclusivity: the native listener and an OS accelerator are never
simultaneously active. -/
def noBoth (st : HkState) : Prop :=
  st.globeActive = true → st.registeredAccel = none

/-- Reachable-state invariant: a registered accelerator is always the
formatted form of the stored non-globe hotkey, and an active globe listener
implies no accelerator and a stored globe hotkey. -/
def HkInv (st : HkState) : Prop :=
  (∀ a, st.registeredAccel = some a →
    ∃ c, st.currentHotkey = some c ∧ isGlobeHotkey c = false ∧ a = formatHotkey c) ∧
  (st.globeActive = true →
    st.registeredAccel = none ∧ ∃ c, st.currentHotkey = some c ∧ isGlobeHotkey c = true)

lemma hkInv_init :
    HkInv { globeActive := false, registeredAccel := none, currentHotkey := none } := by
  constructor
  · intro a h
    simp at h
  · intro h
    simp at h

/-- One `registerHotkey` call from any state satisfying the invariant: every
intermediate state keeps the listener and the accelerator mutually exclusive,
after the very first action the old binding is fully inactive, and the final
state satisfies the invariant again. -/
lemma registerHotkey_step (st : HkState) (hInv : HkInv st)
    (newHk : List Char) (regOk globeOk : Bool) :
    (∀ k, noBoth (runHk st ((registerHotkeyActs st.currentHotkey newHk regOk globeOk).take k))) ∧
    (∀ old, st.currentHotkey = some old →
      (runHk st ((registerHotkeyActs st.currentHotkey newHk regOk globeOk).take 1)).globeActive = false ∧
      (runHk st ((registerHotkeyActs st.currentHotkey newHk regOk globeOk).take 1)).registeredAccel = none) ∧
    HkInv (runHk st (registerHotkeyActs st.currentHotkey newHk regOk globeOk)) := by
  obtain ⟨g, r, cur⟩ := st
  obtain ⟨hr, hg⟩ := hInv
  cases cur with
  | none =>
    have hrnone : r = none := by
      cases r with
      | none => rfl
      | some a =>
        obtain ⟨c, hc, -, -⟩ := hr a rfl
        simp at hc
    have hgfalse : g = false := by
      cases g with
      | false => rfl
      | true =>
        obtain ⟨-, c, hc, -⟩ := hg rfl
        simp at hc
    subst hrnone hgfalse
    by_cases hNew : isGlobeHotkey newHk = true
    · refine ⟨?_, ?_, ?_⟩
      · intro k
        rcases k with _ | _ | _ | k <;>
          simp [registerHotkeyActs, hNew, runHk, execHk, noBoth, List.take]
      · intro old h
        simp at h
      · constructor
        · intro a h
          simp [registerHotkeyActs, hNew, runHk, execHk] at h
        · intro h
          refine ⟨?_, newHk, ?_, hNew⟩ <;>
            simp [registerHotkeyActs, hNew, runHk, execHk]
    · refine ⟨?_, ?_, ?_⟩
      · intro k
        rcases k with _ | _ | k <;>
          cases regOk <;>
            simp [registerHotkeyActs, hNew, runHk, execHk, noBoth, List.take]
      · intro old h
        simp at h
      · constructor
        · intro a h
          cases regOk with
          | false => simp [registerHotkeyActs, hNew, runHk, execHk] at h
          | true =>
            simp [registerHotkeyActs, hNew, runHk, execHk] at h
            refine ⟨newHk, ?_, by simpa using hNew, h.symm⟩
            simp [registerHotkeyActs, hNew, runHk, execHk]
        · intro h
          cases regOk <;>
            simp [registerHotkeyActs, hNew, runHk, execHk] at h
  | some old =>
    by_cases hOld : isGlobeHotkey old = true
    · have hrnone : r = none := by
        cases r with
        | none => rfl
        | some a =>
          obtain ⟨c, hc, hcg, -⟩ := hr a rfl
          rw [Option.some_inj] at hc
          subst hc
          rw [hcg] at hOld
          simp at hOld
      subst hrnone
      by_cases hNew : isGlobeHotkey newHk = true
      · refine ⟨?_, ?_, ?_⟩
        · intro k
          rcases k with _ | _ | _ | _ | k <;>
            simp [registerHotkeyActs, hOld, hNew, runHk, execHk, noBoth, List.take, hg]
        · intro o ho
          constructor <;>
            simp [registerHotkeyActs, hOld, hNew, runHk, execHk, List.take]
        · constructor
          · intro a h
            simp [registerHotkeyActs, hOld, hNew, runHk, execHk] at h
          · intro h
            refine ⟨?_, newHk, ?_, hNew⟩ <;>
              simp [registerHotkeyActs, hOld, hNew, runHk, execHk]
      · refine ⟨?_, ?_, ?_⟩
        · intro k
          rcases k with _ | _ | _ | k <;>
            cases regOk <;>
              simp [registerHotkeyActs, hOld, hNew, runHk, execHk, noBoth, List.take, hg]
        · intro o ho
          constructor <;>
            simp [registerHotkeyActs, hOld, hNew, runHk, execHk, List.take]
        · constructor
          · intro a h
            cases regOk with
            | false => simp [registerHotkeyActs, hOld, hNew, runHk, execHk] at h
            | true =>
              simp [registerHotkeyActs, hOld, hNew, runHk, execHk] at h
              refine ⟨newHk, ?_, by simpa using hNew, h.symm⟩
              simp [registerHotkeyActs, hOld, hNew, runHk, execHk]
          · intro h
            cases regOk <;>
              simp [registerHotkeyActs, hOld, hNew, runHk, execHk] at h
    · have hgfalse : g = false := by
        cases g with
        | false => rfl
        | true =>
          obtain ⟨-, c, hc, hcg⟩ := hg rfl
          rw [Option.some_inj] at hc
          subst hc
          exact absurd hcg hOld
      subst hgfalse
      have hrshape : r = none ∨ r = some (formatHotkey old) := by
        cases r with
        | none => exact Or.inl rfl
        | some a =>
          obtain ⟨c, hc, -, ha⟩ := hr a rfl
          rw [Option.some_inj] at hc
          subst hc
          exact Or.inr (by rw [ha])
      by_cases hNew : isGlobeHotkey newHk = true
      · refine ⟨?_, ?_, ?_⟩
        · intro k
          rcases hrshape with rfl | rfl <;>
            rcases k with _ | _ | _ | _ | k <;>
              simp [registerHotkeyActs, hOld, hNew, runHk, execHk, noBoth, List.take]
        · intro o ho
          rcases hrshape with rfl | rfl <;>
            constructor <;>
              simp [registerHotkeyActs, hOld, hNew, runHk, execHk, List.take]
        · rcases hrshape with rfl | rfl <;>
            constructor
          · intro a h
            simp [registerHotkeyActs, hOld, hNew, runHk, execHk] at h
          · intro h
            refine ⟨?_, newHk, ?_, hNew⟩ <;>
              simp [registerHotkeyActs, hOld, hNew, runHk, execHk]
          · intro a h
            simp [registerHotkeyActs, hOld, hNew, runHk, execHk] at h
          · intro h
            refine ⟨?_, newHk, ?_, hNew⟩ <;>
              simp [registerHotkeyActs, hOld, hNew, runHk, execHk]
      · refine ⟨?_, ?_, ?_⟩
        · intro k
          rcases hrshape with rfl | rfl <;>
            rcases k with _ | _ | _ | k <;>
              cases regOk <;>
                simp [registerHotkeyActs, hOld, hNew, runHk, execHk, noBoth, List.take]
        · intro o ho
          rcases hrshape with rfl | rfl <;>
            constructor <;>
              simp [registerHotkeyActs, hOld, hNew, runHk, execHk, List.take]
        · rcases hrshape with rfl | rfl <;>
            constructor
          · intro a h
            cases regOk with
            | false => simp [registerHotkeyActs, hOld, hNew, runHk, execHk] at h
            | true =>
              simp [registerHotkeyActs, hOld, hNew, runHk, execHk] at h
              refine ⟨newHk, ?_, by simpa using hNew, h.symm⟩
              simp [registerHotkeyActs, hOld, hNew, runHk, execHk]
          · intro h
            cases regOk <;>
              simp [registerHotkeyActs, hOld, hNew, runHk, execHk] at h
          · intro a h
            cases regOk with
            | false => simp [registerHotkeyActs, hOld, hNew, runHk, execHk] at h
            | true =>
              simp [registerHotkeyActs, hOld, hNew, runHk, execHk] at h
              refine ⟨newHk, ?_, by simpa using hNew, h.symm⟩
              simp [registerHotkeyActs, hOld, hNew, runHk, execHk]
          · intro h
            cases regOk <;>
              simp [registerHotkeyActs, hOld, hNew, runHk, execHk] at h

/-- States reached by any sequence of `registerHotkey` calls satisfy the
invariant. -/
lemma hkInv_runRegisterCalls (calls : List (List Char × Bool × Bool)) :
    HkInv (runRegisterCalls calls) := by
  have haux : ∀ (cs : List (List Char × Bool × Bool)) (st : HkState), HkInv st →
      HkInv (cs.foldl registerHotkeyRun st) := by
    intro cs
    induction cs with
    | nil => intro st h; exact h
    | cons c rest ih =>
      intro st h
      exact ih _ ((registerHotkey_step st h c.1 c.2.1 c.2.2).2.2)
  exact haux calls _ hkInv_init

/-- The globe sentinel never reaches the accelerator-registration path. -/
lemma regAccel_not_of_globe (cur : Option (List Char)) (newHk : List Char)
    (regOk globeOk : Bool) (hNew : isGlobeHotkey newHk = true) (a : List Char) (ok : Bool) :
    HkAction.regAccel a ok ∉ registerHotkeyActs cur newHk regOk globeOk := by
  cases cur with
  | none => simp [registerHotkeyActs, hNew]
  | some old =>
    by_cases hOld : isGlobeHotkey old = true <;>
      simp [registerHotkeyActs, hNew, hOld]

/-- C7: from any state reachable by a sequence of hotkey changes, a further
`registerHotkey` call (with any registration / spawn outcome) keeps the
native listener and the OS accelerator mutually exclusive at every
intermediate step; the old binding is fully unregistered after the first
action, i.e. before the new registration runs; and when the new hotkey is the
fn/globe sentinel no accelerator-registration action occurs at all. -/
theorem register_hotkey_exclusivity (calls : List (List Char × Bool × Bool))
    (newHk : List Char) (regOk globeOk : Bool) :
    (∀ k, noBoth (runHk (runRegisterCalls calls)
      ((registerHotkeyActs (runRegisterCalls calls).currentHotkey newHk regOk globeOk).take k))) ∧
    (∀ old, (runRegisterCalls calls).currentHotkey = some old →
      (runHk (runRegisterCalls calls)
        ((registerHotkeyActs (runRegisterCalls calls).currentHotkey newHk regOk globeOk).take 1)).globeActive = false ∧
      (runHk (runRegisterCalls calls)
        ((registerHotkeyActs (runRegisterCalls calls).currentHotkey newHk regOk globeOk).take 1)).registeredAccel = none) ∧
    (isGlobeHotkey newHk = true → ∀ a ok, HkAction.regAccel a ok ∉
      registerHotkeyActs (runRegisterCalls calls).currentHotkey newHk regOk globeOk) := by
  obtain ⟨h1, h2, -⟩ :=
    registerHotkey_step (runRegisterCalls calls) (hkInv_runRegisterCalls calls) newHk regOk globeOk
  exact ⟨h1, h2, fun hNew a ok => regAccel_not_of_globe _ newHk regOk globeOk hNew a ok⟩

/-- Witness for `register_hotkey_exclusivity`: after `set_hotkey("fn")`, a
change to `ctrl+alt+p` stops the native listener first (state after the first
action has it inactive) and every intermediate state keeps listener and
accelerator mutually exclusive. -/
theorem register_hotkey_exclusivity_witness :
    noBoth (runHk (runRegisterCalls [(("fn").toList, true, true)])
      ((registerHotkeyActs (runRegisterCalls [(("fn").toList, true, true)]).currentHotkey
        (("ctrl+alt+p").toList) true true).take 2)) ∧
    (runHk (runRegisterCalls [(("fn").toList, true, true)])
      ((registerHotkeyActs (runRegisterCalls [(("fn").toList, true, true)]).currentHotkey
        (("ctrl+alt+p").toList) true true).take 1)).globeActive = false :=
  ⟨(register_hotkey_exclusivity [(("fn").toList, true, true)] (("ctrl+alt+p").toList) true true).1 2,
   ((register_hotkey_exclusivity [(("fn").toList, true, true)] (("ctrl+alt+p").toList) true true).2.1
      (("fn").toList) (by decide)).1⟩

end Listen
